import Mathlib

/-!
Shallow embedding of the chess-agent orchestration core
(src/agent/graph.py and src/agent/chess_api.py).

The chess rules library (python-chess) is external to the core: the spec
treats it as a rules oracle reached through "parse position", "parse move",
"legal moves", "apply move" and "encode position". It is embedded as an
abstract structure of those operations; every definition below is
parameterised by such an oracle and mirrors the Python source line by line.
Python exceptions are embedded as Except / Option results: a caught
ValueError becomes an Except.error value, an uncaught exception a none.
-/

/-- The interface of the python-chess rules oracle as the core uses it.
boardOfFen embeds chess.Board(fen) (Except.error e for a raised ValueError
with text e), moveFromUci embeds chess.Move.from_uci, legalMoves embeds
list(board.legal_moves) in the oracle's stable order, uciOfMove embeds
Move.uci(), pushMove embeds board.push, fenOfBoard embeds board.fen(). -/
structure ChessOracle (B M : Type) where
  boardOfFen : String → Except String B
  moveFromUci : String → Except String M
  legalMoves : B → List M
  uciOfMove : M → String
  pushMove : B → M → B
  fenOfBoard : B → String

deriving instance DecidableEq for Except

/-- chess.STARTING_FEN. -/
def STARTING_FEN : String := "rnbqkbnr/pppppppp/8/8/8/8/PPPPPPPP/RNBQKBNR w KQkq - 0 1"

variable {B M : Type} [DecidableEq M]

/-- The parse-failure text of validate_move's except branch
(graph.py lines 177-180). -/
def invalidFormatMsg (move e : String) : String :=
  "ERROR: Invalid move format '" ++ move ++ "': " ++ e

/-- The truncated legal-move sample string of validate_move
(graph.py lines 165-168): first ten legal moves in oracle order, joined by
", ", with ", ..." appended when more exist. -/
def legalMovesStr (O : ChessOracle B M) (board : B) : String :=
  let legal_moves_list := O.legalMoves board
  let s := String.intercalate ", " ((legal_moves_list.take 10).map O.uciOfMove)
  if legal_moves_list.length > 10 then s ++ ", ..." else s

/-- The illegal-move rejection text of validate_move (graph.py lines 170-171). -/
def illegalMoveMsg (O : ChessOracle B M) (move current_position : String) (board : B) : String :=
  "ERROR: Illegal move '" ++ move ++ "' in position " ++ current_position ++
    ". Legal moves include: " ++ legalMovesStr O board

/-- graph.py validate_move (lines 146-180). chess.Board and
chess.Move.from_uci both raise ValueError into the one try/except, which
returns the parse-failure rejection; a parsed move absent from the
legal-move set returns the illegal-move rejection; a legal move returns
(True, move). -/
def validate_move (O : ChessOracle B M) (move current_position : String) : Bool × String :=
  match O.boardOfFen current_position with
  | Except.error e => (false, invalidFormatMsg move e)
  | Except.ok board =>
    match O.moveFromUci move with
    | Except.error e => (false, invalidFormatMsg move e)
    | Except.ok chess_move =>
      if chess_move ∈ O.legalMoves board then
        (true, move)
      else
        (false, illegalMoveMsg O move current_position board)

/-- The three ValueError raise sites of chess_api.py update_fen, told apart
by their message exactly as the source tells them apart. -/
inductive UpdateFenError where
  | invalidFen : String → UpdateFenError
  | invalidMoveFormat : String → UpdateFenError
  | illegalMove : String → String → UpdateFenError
deriving DecidableEq

/-- chess_api.py update_fen (lines 440-481): parse the FEN (ValueError
"Invalid FEN string" on failure), parse the move (ValueError "Invalid move
format" on failure), reject an illegal move (ValueError "Illegal move"),
otherwise push the move and return the new FEN. -/
def update_fen (O : ChessOracle B M) (fen move : String) : Except UpdateFenError String :=
  match O.boardOfFen fen with
  | Except.error e => Except.error (UpdateFenError.invalidFen e)
  | Except.ok board =>
    match O.moveFromUci move with
    | Except.error e => Except.error (UpdateFenError.invalidMoveFormat e)
    | Except.ok chess_move =>
      if chess_move ∈ O.legalMoves board then
        Except.ok (O.fenOfBoard (O.pushMove board chess_move))
      else
        Except.error (UpdateFenError.illegalMove move fen)

/-- A tool-result message as tools_node reads it: msg.type, msg.name (None
when the attribute is absent) and msg.content. -/
structure ToolMsg where
  type : String
  name : Option String
  content : String
deriving DecidableEq

/-- The move-tool test of tools_node (graph.py lines 197-200):
msg.type == "tool" and tool_name in ["tool_register_user_move", "tool_make_move"]. -/
def isMoveToolMsg (msg : ToolMsg) : Bool :=
  msg.type == "tool" &&
    (msg.name == some "tool_register_user_move" || msg.name == some "tool_make_move")

/-- One iteration of tools_node's loop over the new tool messages
(graph.py lines 196-215): for a move-tool message, substitute the starting
FEN when the working position is None, validate, and either rewrite the
message content with the rejection text (position unchanged) or advance the
position through update_fen; other messages pass through untouched. The
none result embeds an uncaught exception (update_fen raising after a
successful validation). -/
def tools_node_step (O : ChessOracle B M) (current_position : Option String)
    (msg : ToolMsg) : Option (Option String × ToolMsg) :=
  if isMoveToolMsg msg then
    let pos := current_position.getD STARTING_FEN
    let v := validate_move O msg.content pos
    if v.1 then
      match update_fen O pos msg.content with
      | Except.ok p2 => some (some p2, msg)
      | Except.error _ => none
    else
      some (some pos, { msg with content := v.2 })
  else
    some (current_position, msg)

/-- tools_node's for-loop (graph.py lines 196-215), threading the working
position through the batch in request order and collecting the (possibly
rewritten) tool messages. -/
def tools_node_loop (O : ChessOracle B M) (current_position : Option String) :
    List ToolMsg → Option (List ToolMsg × Option String)
  | [] => some ([], current_position)
  | msg :: rest =>
    match tools_node_step O current_position msg with
    | none => none
    | some (pos2, msg2) =>
      match tools_node_loop O pos2 rest with
      | none => none
      | some (msgs, finalPos) => some (msg2 :: msgs, finalPos)

/-- tools_node (graph.py lines 183-220) on the batch of new tool messages
the executor produced: returns the rewritten messages and the final working
position committed into the returned state. -/
def tools_node (O : ChessOracle B M) (current_position : Option String)
    (new_messages : List ToolMsg) : Option (List ToolMsg × Option String) :=
  tools_node_loop O current_position new_messages

/-- The position update_fen yields for a move, or the unchanged position on
error; used only to describe positions reached through accepted moves. -/
def applyMoveD (O : ChessOracle B M) (pos move : String) : String :=
  match update_fen O pos move with
  | Except.ok q => q
  | Except.error _ => pos

/-- Sequential application of a list of moves through update_fen. -/
def applyMoves (O : ChessOracle B M) (pos : String) : List String → String
  | [] => pos
  | mv :: rest => applyMoves O (applyMoveD O pos mv) rest

/-- The moves of the batch's move-tool messages that validate_move accepts,
each validated against the working position produced by the accepted moves
before it. -/
def acceptedMoves (O : ChessOracle B M) (pos : String) : List ToolMsg → List String
  | [] => []
  | msg :: rest =>
    if isMoveToolMsg msg then
      if (validate_move O msg.content pos).1 then
        msg.content :: acceptedMoves O (applyMoveD O pos msg.content) rest
      else
        acceptedMoves O pos rest
    else
      acceptedMoves O pos rest

/-- A conversation message as the reasoning step and router read it: a role,
text content, and the tool_calls attribute (None when the message class has
no such attribute, as for system and human messages). -/
structure LlmMsg where
  role : String
  content : String
  tool_calls : Option (List (String × String))
deriving DecidableEq

/-- The ChessState TypedDict of graph.py: the message history and the
current position (a FEN string, or None when no game state exists yet). -/
structure ChessStateL where
  messages : List LlmMsg
  current_position : Option String
deriving DecidableEq

/-- Python str() of an optional string as an f-string renders it:
None prints as "None". -/
def pyOptStr : Option String → String
  | none => "None"
  | some s => s

/-- The ephemeral position notice agent_node builds (graph.py lines 254-257). -/
def positionNotice (current_position : Option String) : String :=
  "Current board position (FEN): \x7b\"fen\": \"" ++ pyOptStr current_position ++
    "\"\x7d\nUse this FEN when calling tool_get_best_move."

/-- The SystemMessage carrying the position notice. -/
def positionMsg (state : ChessStateL) : LlmMsg :=
  { role := "system", content := positionNotice state.current_position, tool_calls := none }

/-- The message list agent_node sends to the provider (graph.py lines
249-261): the persisted history with the position notice appended at the
end of the list. -/
def agent_context (state : ChessStateL) : List LlmMsg :=
  state.messages ++ [positionMsg state]

/-- agent_node's returned delta (graph.py lines 263-267): only the
provider's response message, keyed under "messages"; the position notice is
not part of it and no position key is returned. The provider is the
external llm function. -/
def agent_node (llm : List LlmMsg → LlmMsg) (state : ChessStateL) : List LlmMsg :=
  [llm (agent_context state)]

/-- The framework merge of agent_node's delta into ChessState: add_messages
appends the returned messages; current_position is absent from the delta
and keeps its value. -/
def applyAgent (llm : List LlmMsg → LlmMsg) (state : ChessStateL) : ChessStateL :=
  { messages := state.messages ++ agent_node llm state,
    current_position := state.current_position }

/-- Python truthiness of last_message.tool_calls guarded by hasattr
(graph.py line 273): False when the attribute is absent or the list is
empty. -/
def hasToolCalls (msg : LlmMsg) : Bool :=
  match msg.tool_calls with
  | some l => !l.isEmpty
  | none => false

/-- The two values should_continue returns: the "tools" edge or END. -/
inductive Route where
  | tools
  | endG
deriving DecidableEq

/-- graph.py should_continue (lines 269-276): inspect the last message of
the history; route to the tools node when it carries tool calls, to END
otherwise. none embeds the IndexError on an empty history. -/
def should_continue (state : ChessStateL) : Option Route :=
  (state.messages.getLast?).map fun last =>
    if hasToolCalls last then Route.tools else Route.endG

/-- The nodes of the compiled graph, END included. -/
inductive GNode where
  | agent
  | tools
  | done
deriving DecidableEq

/-- The edges the builder wires (graph.py lines 279-295): from agent a
conditional edge through should_continue mapping "tools" to the tools node
and END to END; from tools always back to agent; END terminal. -/
def graph_next : GNode → ChessStateL → Option GNode
  | GNode.agent, state =>
    (should_continue state).map fun r =>
      match r with
      | Route.tools => GNode.tools
      | Route.endG => GNode.done
  | GNode.tools, _ => some GNode.agent
  | GNode.done, _ => some GNode.done

/-- Python truthiness of an optional string argument: None and the empty
string are falsy. -/
def truthyStr : Option String → Bool
  | none => false
  | some s => !(s == "")

/-- chess_api.py analyze_position (lines 82-105): the argument validation
and the request payload it proceeds to post. Except.error carries the
ValueError message; Except.ok carries the JSON body as key-value pairs
("proceeds to issue the request"). -/
def analyze_position (fen input_text : Option String)
    (variants depth max_thinking_time : Int) (searchmoves : String) :
    Except String (List (String × String)) :=
  if !truthyStr fen && !truthyStr input_text then
    Except.error "Either 'fen' or 'input_text' must be provided"
  else if variants < 1 ∨ variants > 5 then
    Except.error "variants must be between 1 and 5"
  else if depth < 1 ∨ depth > 18 then
    Except.error "depth must be between 1 and 18"
  else if max_thinking_time < 1 ∨ max_thinking_time > 100 then
    Except.error "max_thinking_time must be between 1 and 100"
  else
    Except.ok
      ([("variants", toString variants), ("depth", toString depth),
        ("maxThinkingTime", toString max_thinking_time)]
        ++ (if truthyStr fen then [("fen", fen.getD "")] else [])
        ++ (if truthyStr input_text then [("input", input_text.getD "")] else [])
        ++ (if !(searchmoves == "") then [("searchmoves", searchmoves)] else []))

/-- Whether an Except value is an error (a raised ValueError in the model). -/
def isErr {ε α : Type} : Except ε α → Bool
  | Except.error _ => true
  | Except.ok _ => false

/-- Modelled from the spec: the "exactly one of fen/input required"
constraint of the analysis-service interface, as the claim states it. -/
def exactlyOneOf (fen input_text : Option String) : Bool :=
  truthyStr fen != truthyStr input_text

/-- Modelled from the spec: the claim's reading of the reasoning context,
the position notice inserted immediately after the (leading) system
message. -/
def specInsertAfterSystem (msgs : List LlmMsg) (notice : LlmMsg) : List LlmMsg :=
  match msgs with
  | [] => [notice]
  | s :: rest => s :: notice :: rest

/-- A twelve-entry UCI table for the concrete witness oracle. -/
def demoUci : List String :=
  ["u0", "u1", "u2", "u3", "u4", "u5", "u6", "u7", "u8", "u9", "u10", "u11"]

/-- A small concrete rules oracle used only to instantiate witnesses:
board 0 (FEN "P0", also reachable as the starting FEN) has legal moves
0 and 1; board 1 (FEN "P1") has twelve legal moves; everything else is a
parse error. -/
def demoO : ChessOracle Nat Nat where
  boardOfFen s :=
    if s == "P0" || s == STARTING_FEN then Except.ok 0
    else if s == "P1" then Except.ok 1
    else Except.error "invalid fen"
  moveFromUci s :=
    match demoUci.indexOf? s with
    | some i => Except.ok i
    | none => Except.error "bad uci"
  legalMoves b :=
    if b == 0 then [0, 1] else if b == 1 then List.range 12 else []
  uciOfMove m := demoUci.getD m "?"
  pushMove b m := b + m + 1
  fenOfBoard b := "P" ++ toString b

/-- A register-user-move tool result carrying the unparseable move "zz",
used by the C10 witness. -/
def rejUserMoveMsg : ToolMsg :=
  { type := "tool", name := some "tool_register_user_move", content := "zz" }

/-- The terminal assistant message used by the C3 witness: it carries an
empty tool-call list. -/
def asstM : LlmMsg := { role := "assistant", content := "done", tool_calls := some [] }

/-- The system and human messages of the concrete two-message history. -/
def sysM : LlmMsg := { role := "system", content := "You are a chess agent.", tool_calls := none }

/-- The human message of the concrete history. -/
def humM : LlmMsg := { role := "human", content := "hi", tool_calls := none }

/-- The concrete ConversationState: a system prompt, one human message, the
starting position. -/
def st0 : ChessStateL := { messages := [sysM, humM], current_position := some STARTING_FEN }

/-- A move that validate_move accepts is applied by update_fen without error:
both run the same oracle calls on the same arguments. -/
theorem update_fen_ok_of_validate (O : ChessOracle B M) (move pos : String)
    (h : (validate_move O move pos).1 = true) :
    ∃ q, update_fen O pos move = Except.ok q := by
  unfold validate_move at h
  unfold update_fen
  cases hB : O.boardOfFen pos with
  | error e => rw [hB] at h; simp at h
  | ok board =>
    rw [hB] at h
    cases hM : O.moveFromUci move with
    | error e => rw [hM] at h; simp at h
    | ok m =>
      rw [hM] at h
      by_cases hmem : m ∈ O.legalMoves board
      · exact ⟨O.fenOfBoard (O.pushMove board m), by simp [hmem]⟩
      · simp [hmem] at h

/-- update_fen lands exactly on applyMoveD's value when validation passed. -/
theorem update_fen_applyMoveD (O : ChessOracle B M) (move pos : String)
    (h : (validate_move O move pos).1 = true) :
    update_fen O pos move = Except.ok (applyMoveD O pos move) := by
  obtain ⟨q, hq⟩ := update_fen_ok_of_validate O move pos h
  rw [hq, applyMoveD, hq]

/-- After the reasoning node appends the provider's response, that response
is the last message of the merged history. -/
theorem applyAgent_getLast (llm : List LlmMsg → LlmMsg) (state : ChessStateL) :
    (applyAgent llm state).messages.getLast? = some (llm (agent_context state)) := by
  simp [applyAgent, agent_node]

/-- C1: for every syntactically valid position string and every move string,
validate_move returns Accepted (is_valid = True, echoing the move) iff the
move parses as UCI and is a member of the oracle's legal-move set for the
position; in every other case it returns Rejected with an error text (the
parse-failure text or the illegal-move text). -/
theorem spec_c1_legality_gate (O : ChessOracle B M) (move pos : String) (board : B)
    (hB : O.boardOfFen pos = Except.ok board) :
    ((validate_move O move pos).1 = true ↔
      ∃ m, O.moveFromUci move = Except.ok m ∧ m ∈ O.legalMoves board)
    ∧ ((validate_move O move pos).1 = true → validate_move O move pos = (true, move))
    ∧ ((validate_move O move pos).1 = false →
      (∃ e, O.moveFromUci move = Except.error e ∧
          validate_move O move pos = (false, invalidFormatMsg move e))
      ∨ (∃ m, O.moveFromUci move = Except.ok m ∧ m ∉ O.legalMoves board ∧
          validate_move O move pos = (false, illegalMoveMsg O move pos board))) := by
  cases hM : O.moveFromUci move with
  | error e =>
    refine ⟨?_, ?_, fun _ => Or.inl ⟨e, rfl, ?_⟩⟩ <;> simp [validate_move, hB, hM]
  | ok m =>
    by_cases hmem : m ∈ O.legalMoves board
    · refine ⟨?_, ?_, ?_⟩ <;> simp [validate_move, hB, hM, hmem]
    · refine ⟨?_, ?_, fun _ => Or.inr ⟨m, rfl, hmem, ?_⟩⟩ <;>
        simp [validate_move, hB, hM, hmem]

/-- Witness for C1 at the concrete oracle: position "P0" parses to board 0
and the statement holds there for move "u0". -/
theorem spec_c1_witness :
    demoO.boardOfFen "P0" = Except.ok 0
    ∧ (((validate_move demoO "u0" "P0").1 = true ↔
        ∃ m, demoO.moveFromUci "u0" = Except.ok m ∧ m ∈ demoO.legalMoves 0)
      ∧ ((validate_move demoO "u0" "P0").1 = true →
          validate_move demoO "u0" "P0" = (true, "u0"))
      ∧ ((validate_move demoO "u0" "P0").1 = false →
        (∃ e, demoO.moveFromUci "u0" = Except.error e ∧
            validate_move demoO "u0" "P0" = (false, invalidFormatMsg "u0" e))
        ∨ (∃ m, demoO.moveFromUci "u0" = Except.ok m ∧ m ∉ demoO.legalMoves 0 ∧
            validate_move demoO "u0" "P0" = (false, illegalMoveMsg demoO "u0" "P0" 0)))) :=
  ⟨by decide, spec_c1_legality_gate demoO "u0" "P0" 0 (by decide)⟩

/-- C4: for every position and move, update_fen fails with the
invalid-move-format ValueError when the move cannot be parsed, fails with
the illegal-move ValueError when the move parses but is not in the
legal-move set of the position, and otherwise returns the derived position
and nothing else. -/
theorem spec_c4_position_tracker (O : ChessOracle B M) (fen move : String) (board : B)
    (hB : O.boardOfFen fen = Except.ok board) :
    (∀ e, O.moveFromUci move = Except.error e →
        update_fen O fen move = Except.error (UpdateFenError.invalidMoveFormat e))
    ∧ (∀ m, O.moveFromUci move = Except.ok m → m ∉ O.legalMoves board →
        update_fen O fen move = Except.error (UpdateFenError.illegalMove move fen))
    ∧ (∀ m, O.moveFromUci move = Except.ok m → m ∈ O.legalMoves board →
        update_fen O fen move = Except.ok (O.fenOfBoard (O.pushMove board m))) := by
  refine ⟨fun e hM => ?_, fun m hM hmem => ?_, fun m hM hmem => ?_⟩
  · simp [update_fen, hB, hM]
  · simp [update_fen, hB, hM, hmem]
  · simp [update_fen, hB, hM, hmem]

/-- Witness for C4 at the concrete oracle: on board 0 the unparseable move
"zz" is a format error, the parseable-but-illegal "u2" an illegal-move
error, and the legal "u0" yields the derived position. -/
theorem spec_c4_witness :
    demoO.boardOfFen "P0" = Except.ok 0
    ∧ update_fen demoO "P0" "zz" = Except.error (UpdateFenError.invalidMoveFormat "bad uci")
    ∧ update_fen demoO "P0" "u2" = Except.error (UpdateFenError.illegalMove "u2" "P0")
    ∧ update_fen demoO "P0" "u0" = Except.ok (demoO.fenOfBoard (demoO.pushMove 0 0)) :=
  ⟨by decide,
   (spec_c4_position_tracker demoO "P0" "zz" 0 (by decide)).1 "bad uci" (by decide),
   (spec_c4_position_tracker demoO "P0" "u2" 0 (by decide)).2.1 2 (by decide) (by decide),
   (spec_c4_position_tracker demoO "P0" "u0" 0 (by decide)).2.2 0 (by decide) (by decide)⟩

/-- C5: for a well-formed but illegal move the Rejected outcome carries the
illegal-move text whose legal-move sample is the first ten legal moves in
the oracle's order (hence at most ten), with the ellipsis marker appended
exactly when the position has strictly more than ten legal moves. -/
theorem spec_c5_truncated_sample (O : ChessOracle B M) (move pos : String) (board : B) (m : M)
    (hB : O.boardOfFen pos = Except.ok board)
    (hM : O.moveFromUci move = Except.ok m)
    (hmem : m ∉ O.legalMoves board) :
    validate_move O move pos = (false, illegalMoveMsg O move pos board)
    ∧ (((O.legalMoves board).take 10).map O.uciOfMove).length ≤ 10
    ∧ ((O.legalMoves board).take 10).map O.uciOfMove
        = ((O.legalMoves board).map O.uciOfMove).take 10
    ∧ legalMovesStr O board =
        (if (O.legalMoves board).length > 10
          then String.intercalate ", " (((O.legalMoves board).take 10).map O.uciOfMove)
                ++ ", ..."
          else String.intercalate ", " (((O.legalMoves board).take 10).map O.uciOfMove)) := by
  refine ⟨by simp [validate_move, hB, hM, hmem], ?_, ?_, rfl⟩
  · simp [List.length_take]
  · simp [List.map_take]

/-- Witness for C5 at the concrete oracle: "u2" parses to move 2, which is
absent from board 0's legal-move set. -/
theorem spec_c5_witness :
    demoO.boardOfFen "P0" = Except.ok 0
    ∧ demoO.moveFromUci "u2" = Except.ok 2
    ∧ 2 ∉ demoO.legalMoves 0
    ∧ (validate_move demoO "u2" "P0" = (false, illegalMoveMsg demoO "u2" "P0" 0)
      ∧ (((demoO.legalMoves 0).take 10).map demoO.uciOfMove).length ≤ 10
      ∧ ((demoO.legalMoves 0).take 10).map demoO.uciOfMove
          = ((demoO.legalMoves 0).map demoO.uciOfMove).take 10
      ∧ legalMovesStr demoO 0 =
          (if (demoO.legalMoves 0).length > 10
            then String.intercalate ", " (((demoO.legalMoves 0).take 10).map demoO.uciOfMove)
                  ++ ", ..."
            else String.intercalate ", " (((demoO.legalMoves 0).take 10).map demoO.uciOfMove))) :=
  ⟨by decide, by decide, by decide,
   spec_c5_truncated_sample demoO "u2" "P0" 0 2 (by decide) (by decide) (by decide)⟩

/-- C6: for every valid position, validate_move is total — every move string
yields either the Accepted echo or a Rejected pair — and an unparseable
move yields the Rejected outcome carrying the human-readable parse-error
text; no exception escapes. -/
theorem spec_c6_no_crash (O : ChessOracle B M) (pos : String) (board : B)
    (hB : O.boardOfFen pos = Except.ok board) :
    (∀ move e, O.moveFromUci move = Except.error e →
        validate_move O move pos = (false, invalidFormatMsg move e))
    ∧ (∀ move, validate_move O move pos = (true, move)
        ∨ (validate_move O move pos).1 = false) := by
  constructor
  · intro move e hM
    simp [validate_move, hB, hM]
  · intro move
    cases hM : O.moveFromUci move with
    | error e => exact Or.inr (by simp [validate_move, hB, hM])
    | ok m =>
      by_cases hmem : m ∈ O.legalMoves board
      · exact Or.inl (by simp [validate_move, hB, hM, hmem])
      · exact Or.inr (by simp [validate_move, hB, hM, hmem])

/-- Witness for C6 at the concrete oracle: the unparseable "zz" on position
"P0" is rejected with the parse-error text. -/
theorem spec_c6_witness :
    demoO.boardOfFen "P0" = Except.ok 0
    ∧ validate_move demoO "zz" "P0" = (false, invalidFormatMsg "zz" "bad uci") :=
  ⟨by decide, (spec_c6_no_crash demoO "P0" 0 (by decide)).1 "zz" "bad uci" (by decide)⟩

/-- C2: one dispatch cycle from a present position never raises, and the
returned position is the starting position with exactly the accepted
move-tool calls of the batch applied sequentially in request order; the
rejected calls contribute nothing, and each accepted move's result is the
position the next call is validated against (the threading of
acceptedMoves). -/
theorem spec_c2_dispatch_composition (O : ChessOracle B M) (p : String)
    (batch : List ToolMsg) :
    ∃ msgs, tools_node O (some p) batch
      = some (msgs, some (applyMoves O p (acceptedMoves O p batch))) := by
  unfold tools_node
  induction batch generalizing p with
  | nil => exact ⟨[], rfl⟩
  | cons msg rest ih =>
    by_cases hmt : isMoveToolMsg msg
    · by_cases hv : (validate_move O msg.content p).1 = true
      · obtain ⟨msgs, hms⟩ := ih (applyMoveD O p msg.content)
        refine ⟨msg :: msgs, ?_⟩
        have hupd := update_fen_applyMoveD O msg.content p hv
        simp [tools_node_loop, tools_node_step, hmt, hv, hupd, hms,
          acceptedMoves, applyMoves]
      · obtain ⟨msgs, hms⟩ := ih p
        refine ⟨{ msg with content := (validate_move O msg.content p).2 } :: msgs, ?_⟩
        simp [tools_node_loop, tools_node_step, hmt, hv, hms, acceptedMoves]
    · obtain ⟨msgs, hms⟩ := ih p
      refine ⟨msg :: msgs, ?_⟩
      simp [tools_node_loop, tools_node_step, hmt, hms, acceptedMoves]

/-- C8: the position component is only ever changed by the two move tools
on an accepted validation: the reasoning node's merged delta keeps the
position, a non-move-tool message (fetch_best_move in particular) passes
through a dispatch step with the position untouched, a whole batch without
move-tool messages leaves the position untouched, and a dispatch step that
does change a present position was a move-tool message whose validation
accepted. -/
theorem spec_c8_frame (O : ChessOracle B M) :
    (∀ (llm : List LlmMsg → LlmMsg) (state : ChessStateL),
      (applyAgent llm state).current_position = state.current_position)
    ∧ (∀ (p : Option String) (msg : ToolMsg), isMoveToolMsg msg = false →
        tools_node_step O p msg = some (p, msg))
    ∧ (∀ (p : Option String) (batch : List ToolMsg),
        (∀ msg ∈ batch, isMoveToolMsg msg = false) →
        tools_node O p batch = some (batch, p))
    ∧ (∀ (p : String) (msg : ToolMsg) (q : Option String) (msg2 : ToolMsg),
        tools_node_step O (some p) msg = some (q, msg2) → q ≠ some p →
        isMoveToolMsg msg = true ∧ (validate_move O msg.content p).1 = true) := by
  refine ⟨fun llm state => rfl, fun p msg hmt => ?_, fun p batch hall => ?_, ?_⟩
  · simp [tools_node_step, hmt]
  · unfold tools_node
    induction batch with
    | nil => rfl
    | cons msg rest ih =>
      have hmsg := hall msg (List.mem_cons_self msg rest)
      have hrest := ih fun m hm => hall m (List.mem_cons_of_mem msg hm)
      simp [tools_node_loop, tools_node_step, hmsg, hrest]
  · intro p msg q msg2 hstep hq
    by_cases hmt : isMoveToolMsg msg
    · refine ⟨hmt, ?_⟩
      by_cases hv : (validate_move O msg.content p).1 = true
      · exact hv
      · exfalso
        simp [tools_node_step, hmt, hv] at hstep
        exact hq hstep.1.symm
    · exfalso
      simp [tools_node_step, hmt] at hstep
      exact hq hstep.1.symm

/-- C10: when the state's position is None and the dispatcher meets a
move-tool result, it substitutes the canonical starting position before
validating, and that substitution is committed into the returned state even
when the validation rejects the move: the batch of that one rejected call
returns the starting FEN as the position. -/
theorem spec_c10_none_substitution (O : ChessOracle B M) (msg : ToolMsg)
    (hmt : isMoveToolMsg msg = true)
    (hv : (validate_move O msg.content STARTING_FEN).1 = false) :
    tools_node O none [msg]
      = some ([{ msg with content := (validate_move O msg.content STARTING_FEN).2 }],
          some STARTING_FEN) := by
  simp [tools_node, tools_node_loop, tools_node_step, hmt, hv, Option.getD]

/-- Witness for C10 at the concrete oracle: a register-user-move result
carrying the unparseable move "zz" is rejected against the substituted
starting position, which is still committed. -/
theorem spec_c10_witness :
    isMoveToolMsg rejUserMoveMsg = true
    ∧ (validate_move demoO "zz" STARTING_FEN).1 = false
    ∧ tools_node demoO none [rejUserMoveMsg]
      = some ([{ rejUserMoveMsg with content := (validate_move demoO "zz" STARTING_FEN).2 }],
          some STARTING_FEN) :=
  ⟨by decide, by decide,
   spec_c10_none_substitution demoO rejUserMoveMsg (by decide) (by decide)⟩

/-- C3: one turn-controller cycle. After a reasoning step the conditional
edge routes to the tool dispatcher exactly when the returned assistant
message carries at least one tool-call request; when it carries none the
invocation ends (END) with that message appended last to history; and the
edge out of the dispatcher always returns to the reasoning node. -/
theorem spec_c3_state_machine (llm : List LlmMsg → LlmMsg) (state : ChessStateL) :
    (graph_next GNode.agent (applyAgent llm state)
      = some (if hasToolCalls (llm (agent_context state)) then GNode.tools else GNode.done))
    ∧ (hasToolCalls (llm (agent_context state)) = false →
        graph_next GNode.agent (applyAgent llm state) = some GNode.done
        ∧ (applyAgent llm state).messages.getLast? = some (llm (agent_context state)))
    ∧ (∀ s2 : ChessStateL, graph_next GNode.tools s2 = some GNode.agent) := by
  have hlast := applyAgent_getLast llm state
  refine ⟨?_, fun hno => ⟨?_, hlast⟩, fun s2 => rfl⟩ <;>
    cases h : hasToolCalls (llm (agent_context state)) <;>
      simp_all [graph_next, should_continue, hlast]

/-- Witness for C3 at a concrete provider returning a tool-call-free
assistant message over the concrete state. -/
theorem spec_c3_witness :
    hasToolCalls asstM = false
    ∧ (graph_next GNode.agent (applyAgent (fun _ => asstM) st0) = some GNode.done
      ∧ (applyAgent (fun _ => asstM) st0).messages.getLast? = some asstM) :=
  ⟨rfl, (spec_c3_state_machine (fun _ => asstM) st0).2.1 rfl⟩

/-- C7 at the concrete two-message history: agent_node appends the position
notice at the end of the context it sends to the provider, after the human
message, not immediately after the system message as the source's own
comment ("Insert position info after system message but before other
messages") and the claim state; the merged state still adds only the
provider's response to history. -/
theorem spec_c7_notice_misplaced :
    agent_context st0 = [sysM, humM, positionMsg st0]
    ∧ specInsertAfterSystem st0.messages (positionMsg st0) = [sysM, positionMsg st0, humM]
    ∧ (agent_context st0).map LlmMsg.role = ["system", "human", "system"]
    ∧ (specInsertAfterSystem st0.messages (positionMsg st0)).map LlmMsg.role
        = ["system", "system", "human"]
    ∧ agent_node (fun _ => asstM) st0 = [asstM]
    ∧ (applyAgent (fun _ => asstM) st0).messages = st0.messages ++ [asstM] :=
  ⟨rfl, rfl, rfl, rfl, rfl, rfl⟩

/-- C9 counterexample: with both fen and input_text provided (violating the
claim's exactly-one-of requirement) and all numeric parameters in range,
analyze_position does not raise: it proceeds to build the request. -/
theorem spec_c9_counterexample :
    exactlyOneOf (some "X") (some "Y") = false
    ∧ isErr (analyze_position (some "X") (some "Y") 1 12 50 "") = false := by
  constructor
  · rfl
  · rfl

/-- C9 amended: analyze_position raises ValueError exactly when variants,
depth or max_thinking_time is out of range, or when neither fen nor
input_text is provided (None or empty, by Python truthiness); providing
both is accepted and both are placed in the payload. -/
theorem spec_c9_validation (fen input_text : Option String)
    (variants depth max_thinking_time : Int) (searchmoves : String) :
    isErr (analyze_position fen input_text variants depth max_thinking_time searchmoves) = true
      ↔ ((truthyStr fen = false ∧ truthyStr input_text = false)
        ∨ variants < 1 ∨ variants > 5 ∨ depth < 1 ∨ depth > 18
        ∨ max_thinking_time < 1 ∨ max_thinking_time > 100) := by
  unfold analyze_position
  split_ifs with h1 h2 h3 h4 <;> simp_all [isErr] <;> tauto
